import Mathlib

/-!
Verification of the node-vault client core (src/unnamed/part_000).

The development shallowly embeds the request-construction and dispatch
pipeline of the client: JSON-like values, JavaScript object-merge
semantics (`Object.assign`), the tv4 structural validation used by
`request`, mustache-style URI templating, query-parameter expansion
(`extendOptions`), response interpretation (`handleVaultResponse`) and
the generated-operation pipeline (`generateFunction`).  Stateful
JavaScript mutation (in-place updates of the caller's options object and
write-through of the shared `headers` object) is embedded by explicit
state passing: each operation returns, besides its result, the value of
the caller-visible objects after the call.
-/

namespace NodeVault

/-- JSON-like runtime values.  `jnull` stands for both `null` and
`undefined` where the two behave alike; a genuinely absent property is
represented by `Option.none` at use sites. -/
inductive JVal where
  | jnull : JVal
  | jbool : Bool → JVal
  | jnum : Int → JVal
  | jstr : String → JVal
  | jarr : List JVal → JVal
  | jobj : List (String × JVal) → JVal
deriving Repr

/-- A JavaScript object: an insertion-ordered association list.  JS
objects never hold duplicate keys; all constructions below preserve
that. -/
abbrev JObj := List (String × JVal)

/-- Property read: first entry with the key. -/
def objGet : JObj → String → Option JVal
  | [], _ => none
  | p :: rest, k => if p.1 = k then some p.2 else objGet rest k

/-- Presence test, the JS `k in o`. -/
def objHas (o : JObj) (k : String) : Bool :=
  (objGet o k).isSome

/-- Update the value of a key that is already present (an existing key
keeps its position); absent keys are untouched. -/
def objUpd : JObj → String → JVal → JObj
  | [], _, _ => []
  | p :: rest, k, v => (if p.1 = k then (k, v) else p) :: objUpd rest k v

/-- Property write, JS semantics: an existing key keeps its position and
gets the new value; a new key is appended. -/
def objSet (o : JObj) (k : String) (v : JVal) : JObj :=
  if objHas o k then objUpd o k v else o ++ [(k, v)]

/-- Deletion, the JS `delete o[k]`. -/
def objDelete : JObj → String → JObj
  | [], _ => []
  | p :: rest, k => if p.1 = k then objDelete rest k else p :: objDelete rest k

/-- The merge `Object.assign({}, a, b)` at the value level: entries of `b` are
written over `a` in order; later writes win, existing keys keep their
position, new keys are appended. -/
def objAssign (a b : JObj) : JObj :=
  b.foldl (fun acc p => objSet acc p.1 p.2) a

/-- The source's `defaults` helper, `(obj, vals) => Object.assign(obj,
vals, obj)`.  Per ECMAScript, `Object.assign` copies each source fully,
in order, onto the target: first `vals` overwrites `obj`, then the third
argument — `obj` itself, by that point already holding the merged
entries — is copied onto itself, a no-op.  So despite its name the
helper behaves as `Object.assign(obj, vals)`: values of `vals` win, in
place, and keys of `vals` missing from `obj` are appended. -/
def jsDefaults (o vals : JObj) : JObj :=
  objAssign o vals

/-- JavaScript truthiness. -/
def truthy : JVal → Bool
  | .jnull => false
  | .jbool b => b
  | .jnum n => n ≠ 0
  | .jstr s => s ≠ ""
  | .jarr _ => true
  | .jobj _ => true

/-- JavaScript `String(v)` on non-array values. -/
def jsToStringLeaf : JVal → String
  | .jnull => "null"
  | .jbool b => if b then "true" else "false"
  | .jnum n => toString n
  | .jstr s => s
  | .jarr _ => ""
  | .jobj _ => "[object Object]"

/-- An array element under `Array.prototype.toString`: `null` and
`undefined` contribute the empty string. -/
def jsArrElemString : JVal → String
  | .jnull => ""
  | v => jsToStringLeaf v

def joinCommas : List String → String
  | [] => ""
  | [s] => s
  | s :: rest => s ++ "," ++ joinCommas rest

/-- JavaScript `String(v)` coercion as used in template literals.
Arrays join their elements with commas; one level suffices because the
client's declared body type (`json : { [key]: string | number }`) admits
no nested arrays. -/
def jsToString : JVal → String
  | .jarr es => joinCommas (es.map jsArrElemString)
  | v => jsToStringLeaf v

/-- Reading a property of an arbitrary value: only objects have (own)
properties in the fragment the client exercises. -/
def jsGetField (v : JVal) (k : String) : Option JVal :=
  match v with
  | .jobj f => objGet f k
  | _ => none

/-- The fields of a value when it is an object, else nothing. -/
def jsonObjOf : Option JVal → JObj
  | some (.jobj f) => f
  | _ => []

/-- The JS test `v.length > 0` for the values the client meets: arrays and
strings have a numeric `length`, everything else yields `undefined`
and the comparison is false. -/
def lengthPositive : JVal → Bool
  | .jarr l => l.length > 0
  | .jstr s => s.length > 0
  | _ => false

/-- Uppercase hexadecimal digit. -/
def hexChar (n : Nat) : Char :=
  if n < 10 then Char.ofNat (48 + n) else Char.ofNat (55 + n)

/-- Characters `encodeURIComponent` leaves unescaped:
`A-Z a-z 0-9 - _ . ! ~ * ' ( )`. -/
def isUnreservedURI (c : Char) : Bool :=
  c.isAlphanum || c = '-' || c.toNat = 95 || c = '.' || c.toNat = 33 ||
    c.toNat = 126 || c.toNat = 42 || c.toNat = 39 || c.toNat = 40 || c.toNat = 41

/-- Percent-encode one character as the `%XX` form of its UTF-8 bytes. -/
def pctEncodeChar (c : Char) : String :=
  String.join (((String.singleton c).toUTF8.toList).map (fun b =>
    String.mk ['%', hexChar (b.toNat / 16), hexChar (b.toNat % 16)]))

/-- Modelled from the `encodeURIComponent` ECMAScript built-in the
source calls in `extendOptions`. -/
def encodeURIComponent (s : String) : String :=
  String.join (s.data.map (fun c =>
    if isUnreservedURI c then String.singleton c else pctEncodeChar c))

/-- Whether `needle` is a leading segment of `hay`. -/
def leadsChars : List Char → List Char → Bool
  | [], _ => true
  | _ :: _, [] => false
  | a :: as, b :: bs => a = b && leadsChars as bs

/-- Whether `needle` occurs somewhere inside `hay` (the effect of the
`/sys\/health/` regex test on a path string). -/
def hasSub (needle : List Char) : List Char → Bool
  | [] => leadsChars needle []
  | c :: rest => leadsChars needle (c :: rest) || hasSub needle rest

/-- Modelled from the mustache dependency: the HTML escaping applied to
every interpolated value (`& < > " ' / = `​ and backtick become
entities). -/
def mustacheEscapeChar (c : Char) : String :=
  if c = '&' then "&amp;"
  else if c = '<' then "&lt;"
  else if c = '>' then "&gt;"
  else if c.toNat = 34 then "&quot;"
  else if c.toNat = 39 then "&#39;"
  else if c = '/' then "&#x2F;"
  else if c.toNat = 96 then "&#x60;"
  else if c.toNat = 61 then "&#x3D;"
  else String.singleton c

def mustacheEscape (s : String) : String :=
  String.join (s.data.map mustacheEscapeChar)

/-- Mustache variable lookup: a missing, `null` or `undefined` variable
renders as the empty string, everything else by string coercion. -/
def mustacheLookup (view : JObj) (name : String) : String :=
  match objGet view name with
  | some .jnull => ""
  | some v => jsToString v
  | none => ""

/-- Joining, the JS `Array.prototype.join`, with a separator. -/
def joinSep (sep : String) : List String → String
  | [] => ""
  | [s] => s
  | s :: rest => s ++ sep ++ joinSep sep rest

/-- Drop leading whitespace. -/
def dropWS : List Char → List Char
  | [] => []
  | c :: rest => if c.isWhitespace then dropWS rest else c :: rest

/-- Trim both ends (the trimming mustache applies to tag names). -/
def trimChars (l : List Char) : List Char :=
  (dropWS (dropWS l.reverse).reverse)

/-- Scan for the first closing `\x7d\x7d` of an interpolation tag:
returns the name characters before it and the remainder after it. -/
def takeTag : List Char → Option (List Char × List Char)
  | [] => none
  | c1 :: tail =>
      match tail with
      | [] => none
      | c2 :: rest =>
          if c1.toNat = 125 ∧ c2.toNat = 125 then some ([], rest)
          else (takeTag tail).map (fun pr => (c1 :: pr.1, pr.2))

/-- Fuel-driven template scan: every `\x7b\x7bname\x7d\x7d` tag becomes
the HTML-escaped view value of the trimmed name; an unclosed opener is
kept literally (mustache proper raises there; the client only renders
well-formed templates).  The fuel starts at the template length, which
the scan never exhausts. -/
def renderChars (view : JObj) : Nat → List Char → List Char
  | 0, _ => []
  | _, [] => []
  | fuel + 1, c1 :: tail =>
      match tail with
      | [] => [c1]
      | c2 :: rest =>
          if c1.toNat = 123 ∧ c2.toNat = 123 then
            match takeTag rest with
            | some (name, rem) =>
                (mustacheEscape (mustacheLookup view (String.mk (trimChars name)))).data ++
                  renderChars view fuel rem
            | none => c1 :: c2 :: rest
          else c1 :: renderChars view fuel tail

/-- Modelled from the mustache dependency, restricted to interpolation
tags (the only feature path templates use): every `\x7b\x7bname\x7d\x7d`
is replaced by the HTML-escaped view value. -/
def mustacheRender (tpl : String) (view : JObj) : String :=
  String.mk (renderChars view tpl.data.length tpl.data)

/-- The `.replace(/&#x2F;/g, '/')` step: every occurrence of the
six-character entity `&#x2F;` becomes a slash. -/
def unescapeSlashes : List Char → List Char
  | '&' :: '#' :: 'x' :: '2' :: 'F' :: ';' :: rest => '/' :: unescapeSlashes rest
  | c :: rest => c :: unescapeSlashes rest
  | [] => []

/-- A structured validation error, as tv4 produces and the client
propagates verbatim: a location inside the document and a message. -/
structure VError where
  dataPath : String
  message : String
deriving Repr, DecidableEq

/-- Property types occurring in the client's JSON schemas. -/
inductive JType where
  | tany : JType
  | tstring : JType
  | tnumber : JType
  | tboolean : JType
deriving Repr, DecidableEq

/-- A JSON schema as the client declares them: a flat object schema with
typed properties and a required list (`requestSchema` and the command
table's request/query schemas all have this shape). -/
structure JSchema where
  properties : List (String × JType)
  required : List String

/-- JS-side type name of a value, for error messages. -/
def jsTypeName : JVal → String
  | .jnull => "null"
  | .jbool _ => "boolean"
  | .jnum _ => "number"
  | .jstr _ => "string"
  | .jarr _ => "array"
  | .jobj _ => "object"

/-- One property check of the schema fragment. -/
def checkType : JType → String → JVal → Option VError
  | .tany, _, _ => none
  | .tstring, loc, v =>
      match v with
      | .jstr _ => none
      | _ => some ⟨loc, "Invalid type: " ++ jsTypeName v ++ " (expected string)"⟩
  | .tnumber, loc, v =>
      match v with
      | .jnum _ => none
      | _ => some ⟨loc, "Invalid type: " ++ jsTypeName v ++ " (expected number)"⟩
  | .tboolean, loc, v =>
      match v with
      | .jbool _ => none
      | _ => some ⟨loc, "Invalid type: " ++ jsTypeName v ++ " (expected boolean)"⟩

/-- Validate the declared properties that are present, in declaration
order, returning the first error. -/
def validateProps : List (String × JType) → JObj → Option VError
  | [], _ => none
  | (k, t) :: rest, fields =>
      match objGet fields k with
      | none => validateProps rest fields
      | some v =>
          match checkType t ("/" ++ k) v with
          | some e => some e
          | none => validateProps rest fields

/-- Modelled from the tv4 dependency on the flat object schemas the
client declares: the document must be an object, carry every required
property, and each declared property present must have the declared
type; the first structured error is reported, `none` means valid. -/
def validateSchema (s : JSchema) (v : JVal) : Option VError :=
  match v with
  | .jobj fields =>
      (match s.required.find? (fun k => ¬ objHas fields k) with
       | some k => some ⟨"", "Missing required property: " ++ k⟩
       | none => validateProps s.properties fields)
  | _ => some ⟨"", "Invalid type: " ++ jsTypeName v ++ " (expected object)"⟩

/-- The structural schema `request` checks every merged options object
against: an object with a string `path` and a string `method`, both
required (source lines 131-142).  Note the schema constrains `method`
only to be a string. -/
def requestSchema : JSchema :=
  ⟨[("path", .tstring), ("method", .tstring)], ["path", "method"]⟩

/-! ## Response interpretation (`handleVaultResponse`) -/

/-- The raw HTTP response envelope the transport hands back: status
code, parsed body, and the echo of the sent request (of which only the
path is inspected). -/
structure RawResponse where
  statusCode : Int
  body : JVal
  requestPath : String

/-- The normalized outcome: a resolved body or a rejection message. -/
inductive VaultOutcome where
  | ok : JVal → VaultOutcome
  | err : String → VaultOutcome
deriving Repr

/-- The regex test `path.match(/sys\/health/) !== null`: the path
contains the substring `sys/health` somewhere. -/
def containsHealth (p : String) : Bool :=
  hasSub "sys/health".data p.data

/-- The source's `hasErrors`:
`body && body.errors && body.errors.length > 0`. -/
def hasErrors (body : JVal) : Bool :=
  truthy body &&
    (match jsGetField body "errors" with
     | some e => truthy e && lengthPositive e
     | none => false)

/-- The read `body.errors[0]` under `hasErrors`: the head of an errors array, or
the first character when `errors` is a (nonempty) string. -/
def firstErrorVal (body : JVal) : JVal :=
  match jsGetField body "errors" with
  | some (.jarr (h :: _)) => h
  | some (.jstr s) =>
      .jstr (match s.data with
             | [] => ""
             | c :: _ => String.mk [c])
  | _ => .jnull

/-- The source function `handleVaultResponse` (lines 62-77). -/
def handleVaultResponse : Option RawResponse → VaultOutcome
  | none => .err "No response passed"
  | some r =>
      if r.statusCode = 200 ∨ r.statusCode = 204 then .ok r.body
      else if containsHealth r.requestPath then .ok r.body
      else if hasErrors r.body then .err (jsToString (firstErrorVal r.body))
      else .err ("Status " ++ toString r.statusCode)

/-! ## The low-level `request` pipeline -/

/-- The client-wide state `request` reads: endpoint, API version, the
resolved token (`config.token || process.env.VAULT_TOKEN`), and the
client-wide default request options.  `requestOptions` is mutable state
in the source (its `headers` sub-object can be written through shared
references), hence it is threaded through the pipeline. -/
structure ClientCtx where
  endpoint : String
  apiVersion : String
  token : Option String
  requestOptions : JObj

/-- The token the header-attachment condition accepts:
`typeof client.token === 'string' && client.token`. -/
def activeToken (ctx : ClientCtx) : Option String :=
  match ctx.token with
  | some t => if t = "" then none else some t
  | none => none

/-- The strict-equality test `options.inherit === false`. -/
def isFalseVal : Option JVal → Bool
  | some (.jbool false) => true
  | _ => false

/-- Line 83-84 of the source: when `inherit` is exactly `false` the
caller's object is used as-is, otherwise client-wide defaults are merged
under it into a fresh object; then `inherit` is deleted. -/
def mergePhase (ctx : ClientCtx) (caller : JObj) : JObj :=
  if isFalseVal (objGet caller "inherit") then objDelete caller "inherit"
  else objDelete (objAssign ctx.requestOptions caller) "inherit"

/-- The call `tv4.validate(options, requestSchema)` with the resulting
`tv4.error` on failure. -/
def tv4Check (o : JObj) : Option VError :=
  validateSchema requestSchema (.jobj o)

/-- The string content of an option that validation has established to
be a string. -/
def strOfOpt : Option JVal → String
  | some (.jstr s) => s
  | _ => ""

/-- Line 89 and 93: the URI template
`endpoint + "/" + apiVersion + options.path` rendered by mustache
against `options.json`, then every `&#x2F;` entity replaced by `/`. -/
def buildUri (ctx : ClientCtx) (o : JObj) : String :=
  String.mk (unescapeSlashes
    (mustacheRender (ctx.endpoint ++ "/" ++ ctx.apiVersion ++ strOfOpt (objGet o "path"))
      (jsonObjOf (objGet o "json"))).data)

/-- The write `options.headers['X-Vault-Token'] = client.token`: writes into the
headers object; a non-object headers value takes no write (the client's
declared types only allow a string map there). -/
def setTokenHeader (o : JObj) (t : String) : JObj :=
  match objGet o "headers" with
  | some (.jobj h) => objUpd o "headers" (.jobj (objSet h "X-Vault-Token" (.jstr t)))
  | _ => o

/-- Lines 91-99 after validation: the `defaults` call writes the rendered
`uri` and a fresh empty `headers` object over the options (its sources
win — the trailing self-copy in `Object.assign(obj, vals, obj)` is a
no-op), then the token header is attached when the client holds a
non-empty string token and `options.headers` is truthy (the fresh empty
object always is). -/
def processValidated (ctx : ClientCtx) (o : JObj) : JObj :=
  let o2 := jsDefaults o [("uri", .jstr (buildUri ctx o)), ("headers", .jobj [])]
  match activeToken ctx with
  | some t => if truthy ((objGet o2 "headers").getD .jnull) then setTokenHeader o2 t else o2
  | none => o2

/-- Everything a call to `request` leaves behind: the settled result
(the options object handed to the transport, or the validation error),
the list of transport dispatches the call made, and the post-call values
of the caller's options object and of the client state (in-place
mutation of the caller's object happens exactly when `inherit` is
`false`; the client state is never written). -/
structure ReqOutcome where
  result : Except VError JObj
  sent : List JObj
  caller : JObj
  ctx : ClientCtx

/-- The source function `client.request` (lines 82-102), with the in-place mutation
of the caller's object made explicit:

* `inherit === false`: the pipeline operates on the caller's object
  itself — `inherit` is deleted from it and, when validation passes,
  `uri` and a fresh `headers` object (carrying the token header when one
  is held) are written onto it in place.
* otherwise the pipeline operates on a fresh merged object and the
  caller's object is untouched.  In particular no caller-supplied (or
  client-default) `headers` object is ever written through a shared
  reference: the `defaults` call replaces `options.headers` with a fresh
  object before the token write (the trailing self-copy of
  `Object.assign(obj, vals, obj)` is a no-op), severing any sharing.

The client state is read, never written. -/
def requestRun (ctx : ClientCtx) (caller : JObj) : ReqOutcome :=
  let o := mergePhase ctx caller
  match tv4Check o with
  | some e =>
      if isFalseVal (objGet caller "inherit") then ⟨.error e, [], o, ctx⟩
      else ⟨.error e, [], caller, ctx⟩
  | none =>
      let fin := processValidated ctx o
      if isFalseVal (objGet caller "inherit") then ⟨.ok fin, [fin], fin, ctx⟩
      else ⟨.ok fin, [fin], caller, ctx⟩

/-! ## Generated operations (`generateFunction`) -/

/-- The field `descriptor.schema`: optional request-body schema and optional
query schema. -/
structure DSchema where
  req : Option JSchema
  query : Option JSchema

/-- A command descriptor: method, path template, optional schemas and
optional descriptor-level default request options. -/
structure Descriptor where
  method : String
  path : String
  schema : Option DSchema
  requestOptions : JObj

/-- The state a generated operation reads: the client-wide context and
the descriptor.  The pipeline never writes either (the `defaults` step
replaces `options.headers` with a fresh object before the token write,
so no shared `headers` reference survives to be mutated). -/
structure CallState where
  ctx : ClientCtx
  desc : Descriptor

/-- The field `args.requestOptions` viewed as an object (absent or non-object
values contribute nothing to `Object.assign`). -/
def reqOptsOf (args : JObj) : JObj :=
  jsonObjOf (objGet args "requestOptions")

/-- Lines 174-178: `Object.assign({}, config.requestOptions,
args.requestOptions, { method, path, json: args })`. -/
def genOptions (st : CallState) (args : JObj) : JObj :=
  objAssign (objAssign st.desc.requestOptions (reqOptsOf args))
    [("method", .jstr st.desc.method), ("path", .jstr st.desc.path), ("json", .jobj args)]

/-- The source function `validate(json, schema)` (lines 144-152): validation is skipped when
no schema is given. -/
def valOpt (s : Option JSchema) (v : JVal) : Option VError :=
  match s with
  | none => none
  | some sch => validateSchema sch v

/-- The source function `extendOptions` (lines 154-166): for every property declared in the
query schema, in declaration order, that is a key of `options.json`,
append `key=encodeURIComponent(value)`; the joined parameters are
appended to the path behind a `?` when any exist. -/
def extendOptions (desc : Descriptor) (o : JObj) : JObj :=
  match desc.schema with
  | none => o
  | some ds =>
      match ds.query with
      | none => o
      | some qs =>
          let params := qs.properties.filterMap (fun p =>
            match objGet (jsonObjOf (objGet o "json")) p.1 with
            | some v => some (p.1 ++ "=" ++ encodeURIComponent (jsToString v))
            | none => none)
          let suffix := if params.isEmpty then "" else "?" ++ joinSep "&" params
          objSet o "path" (.jstr (strOfOpt (objGet o "path") ++ suffix))

/-- What a generated-operation call leaves behind: result, transport
dispatches, and the post-call values of the caller's `args` object and
of the shared client/descriptor state. -/
structure GenOutcome where
  result : Except VError JObj
  sent : List JObj
  args : JObj
  state : CallState

/-- The dispatch tail of a generated call: run `client.request` on the
built options object.  The request pipeline writes nothing into `args`,
the descriptor or the client state — the built options object is fresh
(`Object.assign({}, ...)` at line 174) and the `defaults` step inside
`request` replaces its `headers` with another fresh object before the
token write, so no object reachable from `args` or the descriptor is
ever mutated. -/
def genDispatch (st : CallState) (args : JObj) (o : JObj) : GenOutcome :=
  let r := requestRun st.ctx o
  ⟨r.result, r.sent, args, ⟨r.ctx, st.desc⟩⟩

/-- The stage a generated call reaches once body and query validation
have both passed: query expansion, then dispatch. -/
def genAfterValidation (st : CallState) (args : JObj) (o : JObj) : GenOutcome :=
  genDispatch st args (extendOptions st.desc o)

/-- The closure `generateFunction` installs for a descriptor (lines
173-187): build the merged options; with no `schema` field at all go
straight to `request`; otherwise validate the body against `schema.req`,
then against `schema.query`, expand the query string, and dispatch.  A
validation failure settles the call before any dispatch. -/
def generatedCall (st : CallState) (args : JObj) : GenOutcome :=
  let o := genOptions st args
  match st.desc.schema with
  | none => genDispatch st args o
  | some ds =>
      match valOpt ds.req (.jobj args) with
      | some e => ⟨.error e, [], args, st⟩
      | none =>
          match valOpt ds.query (.jobj args) with
          | some e => ⟨.error e, [], args, st⟩
          | none => genAfterValidation st args o

/-! ## Object-operation lemmas -/

/-- Left-biased choice on option values, the shape of every JS
property-precedence fact below. -/
def optOr (x y : Option JVal) : Option JVal :=
  match x with
  | some v => some v
  | none => y

@[simp] theorem optOr_some (v : JVal) (y : Option JVal) : optOr (some v) y = some v := rfl

@[simp] theorem optOr_none (y : Option JVal) : optOr none y = y := rfl

@[simp] theorem optOr_none_right (x : Option JVal) : optOr x none = x := by
  cases x <;> rfl

@[simp] theorem objGet_nil (k : String) : objGet [] k = none := rfl

theorem objGet_cons (p : String × JVal) (o : JObj) (k : String) :
    objGet (p :: o) k = if p.1 = k then some p.2 else objGet o k := rfl

theorem objHas_eq_isSome (o : JObj) (k : String) :
    objHas o k = (objGet o k).isSome := rfl

theorem objGet_append (a b : JObj) (k : String) :
    objGet (a ++ b) k = optOr (objGet a k) (objGet b k) := by
  induction a with
  | nil => simp
  | cons p rest ih =>
      by_cases h : p.1 = k <;> simp [objGet_cons, h, ih]

theorem objGet_objUpd (o : JObj) (k : String) (v : JVal) (k' : String) :
    objGet (objUpd o k v) k' =
      if k' = k then (objGet o k).map (fun _ => v) else objGet o k' := by
  induction o with
  | nil => simp [objUpd]
  | cons p rest ih =>
      by_cases hpk : p.1 = k
      · by_cases hk' : k' = k
        · subst hk'; simp [objUpd, hpk, objGet_cons, ih]
        · have hpk' : ¬ p.1 = k' := by rw [hpk]; exact fun h => hk' h.symm
          have hkk' : ¬ k = k' := fun h => hk' h.symm
          simp [objUpd, hpk, objGet_cons, hk', hpk', hkk', ih]
      · by_cases hpk' : p.1 = k'
        · have hk' : ¬ k' = k := by rw [← hpk']; exact fun h => hpk h
          simp [objUpd, hpk, objGet_cons, hpk', hk']
        · simp [objUpd, hpk, objGet_cons, hpk', ih]

theorem objGet_objSet (o : JObj) (k : String) (v : JVal) (k' : String) :
    objGet (objSet o k v) k' = if k' = k then some v else objGet o k' := by
  unfold objSet
  by_cases h : objHas o k = true
  · rw [if_pos h, objGet_objUpd]
    by_cases h' : k' = k
    · subst h'
      rw [objHas_eq_isSome] at h
      rcases hg : objGet o k' with _ | w
      · rw [hg] at h; simp at h
      · simp [hg]
    · simp [h']
  · rw [if_neg h, objGet_append]
    rw [objHas_eq_isSome] at h
    by_cases h' : k' = k
    · subst h'
      rcases hg : objGet o k' with _ | w
      · simp [objGet]
      · rw [hg] at h; simp at h
    · have hkk' : ¬ k = k' := fun h'' => h' h''.symm
      rcases hg : objGet o k' with _ | w
      · simp [objGet_cons, hkk', h']
      · simp [h']

theorem objGet_objDelete (o : JObj) (k k' : String) :
    objGet (objDelete o k) k' = if k' = k then none else objGet o k' := by
  induction o with
  | nil => simp [objDelete]
  | cons p rest ih =>
      by_cases h : p.1 = k <;> by_cases h' : p.1 = k' <;>
        by_cases h'' : k' = k <;>
          simp_all [objDelete, objGet_cons]

theorem objGet_eq_none_of_not_mem (o : JObj) (k : String)
    (h : k ∉ o.map Prod.fst) : objGet o k = none := by
  induction o with
  | nil => rfl
  | cons p rest ih =>
      have hp : ¬ p.1 = k := by intro hc; exact h (by simp [hc])
      have hr : k ∉ rest.map Prod.fst := by intro hc; exact h (by simp [hc])
      simp [objGet_cons, hp, ih hr]

theorem objGet_objAssign (a b : JObj) (k : String)
    (hb : (b.map Prod.fst).Nodup) :
    objGet (objAssign a b) k = optOr (objGet b k) (objGet a k) := by
  induction b generalizing a with
  | nil => simp [objAssign]
  | cons p rest ih =>
      rw [List.map_cons, List.nodup_cons] at hb
      have hrest : (rest.map Prod.fst).Nodup := hb.2
      have hnotin : p.1 ∉ rest.map Prod.fst := hb.1
      show objGet (objAssign (objSet a p.1 p.2) rest) k = _
      rw [ih (objSet a p.1 p.2) hrest]
      by_cases h : p.1 = k
      · subst h
        have hnone : objGet rest p.1 = none :=
          objGet_eq_none_of_not_mem rest p.1 hnotin
        simp [hnone, objGet_cons, objGet_objSet]
      · have hkp : ¬ k = p.1 := fun h' => h h'.symm
        simp [objGet_cons, h, objGet_objSet, hkp]

theorem objGet_jsDefaults (o vals : JObj) (k : String)
    (hv : (vals.map Prod.fst).Nodup) :
    objGet (jsDefaults o vals) k = optOr (objGet vals k) (objGet o k) :=
  objGet_objAssign o vals k hv

/-! ## Validation characterization -/

theorem tv4Check_none_iff (o : JObj) :
    tv4Check o = none ↔
      (∃ s, objGet o "path" = some (.jstr s)) ∧
      (∃ m, objGet o "method" = some (.jstr m)) := by
  unfold tv4Check requestSchema
  rcases hp : objGet o "path" with _ | vp
  · simp [validateSchema, List.find?, objHas_eq_isSome, hp]
  · rcases hm : objGet o "method" with _ | vm
    · simp [validateSchema, List.find?, objHas_eq_isSome, hp, hm]
    · rcases vp with _ | _ | _ | sp | _ | _ <;>
        rcases vm with _ | _ | _ | sm | _ | _ <;>
          simp [validateSchema, validateProps, checkType, List.find?, objHas_eq_isSome, hp, hm]

/-! ## Claims -/

/-- C1: for every raw HTTP response passed to `handleVaultResponse`: a
200 or 204 status resolves with the body unchanged (even when the body
carries a non-empty `errors` array); otherwise a request path matching
the health-check pattern still resolves with the body; otherwise the
call rejects, with the first entry of the body's `errors` sequence as
the message when that sequence is non-empty and with `Status <code>`
when it is not. -/
theorem c1_handleVaultResponse (r : RawResponse) :
    ((r.statusCode = 200 ∨ r.statusCode = 204) →
      handleVaultResponse (some r) = .ok r.body) ∧
    (¬ (r.statusCode = 200 ∨ r.statusCode = 204) →
      containsHealth r.requestPath = true →
      handleVaultResponse (some r) = .ok r.body) ∧
    (¬ (r.statusCode = 200 ∨ r.statusCode = 204) →
      containsHealth r.requestPath = false →
      ∀ f e es, r.body = .jobj f → objGet f "errors" = some (.jarr (e :: es)) →
        handleVaultResponse (some r) = .err (jsToString e)) ∧
    (¬ (r.statusCode = 200 ∨ r.statusCode = 204) →
      containsHealth r.requestPath = false →
      ∀ f, r.body = .jobj f →
        (objGet f "errors" = none ∨ objGet f "errors" = some (.jarr [])) →
        handleVaultResponse (some r) = .err ("Status " ++ toString r.statusCode)) := by
  refine ⟨?_, ?_, ?_, ?_⟩
  · intro h
    simp [handleVaultResponse, h]
  · intro h hh
    simp [handleVaultResponse, h, hh]
  · intro h hh f e es hb he
    have hev : hasErrors r.body = true := by
      simp [hasErrors, hb, truthy, jsGetField, he, lengthPositive]
    have hfe : firstErrorVal r.body = e := by
      simp [firstErrorVal, hb, jsGetField, he]
    simp [handleVaultResponse, h, hh, hev, hfe]
  · intro h hh f hb he
    have hev : hasErrors r.body = false := by
      rcases he with he | he <;>
        simp [hasErrors, hb, truthy, jsGetField, he, lengthPositive]
    simp [handleVaultResponse, h, hh, hev]

/-- Witness for C1 at a concrete response: status 500, body
`{errors:["bad"]}`, non-health path, rejects with message `bad`. -/
theorem c1_handleVaultResponse_witness :
    handleVaultResponse
        (some ⟨500, .jobj [("errors", .jarr [.jstr "bad"])], "/v1/secret/a"⟩) =
      .err "bad" :=
  (c1_handleVaultResponse
      ⟨500, .jobj [("errors", .jarr [.jstr "bad"])], "/v1/secret/a"⟩).2.2.1
    (by decide) (by decide) _ (.jstr "bad") [] rfl rfl

/-- C2 counterexample: the claim says no request whose method lies
outside GET/POST/PUT/DELETE/LIST is ever dispatched, but an options
object with method `PATCH` — a string, but not in the enumeration —
passes the structural validation and is dispatched. -/
theorem c2_counterexample :
    ((requestRun ⟨"e", "v1", none, []⟩
        [("path", .jstr "/x"), ("method", .jstr "PATCH")]).sent.length = 1) ∧
    (∃ fin, (requestRun ⟨"e", "v1", none, []⟩
        [("path", .jstr "/x"), ("method", .jstr "PATCH")]).result = .ok fin ∧
      objGet fin "method" = some (.jstr "PATCH")) ∧
    "PATCH" ∉ ["GET", "POST", "PUT", "DELETE", "LIST"] :=
  ⟨rfl, ⟨_, rfl, rfl⟩, by decide⟩

/-- C2 amended: after merging, the call fails with the validator's
structured error (location and message) unless the options contain a
`path` of type string and a `method` of type string — the runtime schema
constrains `method` only to be a string, not to lie in the
GET/POST/PUT/DELETE/LIST enumeration (which exists only in the static
TypeScript types); no request lacking a string path or string method is
ever dispatched. -/
theorem c2_amended (ctx : ClientCtx) (caller : JObj) :
    (tv4Check (mergePhase ctx caller) = none ↔
      (∃ s, objGet (mergePhase ctx caller) "path" = some (.jstr s)) ∧
      (∃ m, objGet (mergePhase ctx caller) "method" = some (.jstr m))) ∧
    (∀ e, tv4Check (mergePhase ctx caller) = some e →
      (requestRun ctx caller).result = .error e ∧
      (requestRun ctx caller).sent = []) := by
  constructor
  · exact tv4Check_none_iff _
  · intro e he
    by_cases hi : isFalseVal (objGet caller "inherit") = true <;>
      simp [requestRun, he, hi]

/-- Witness for C2 amended: an options object with no `method` rejects
with the validator's missing-property error and dispatches nothing. -/
theorem c2_amended_witness :
    (requestRun ⟨"e", "v1", none, []⟩ [("path", .jstr "/x")]).result =
        .error ⟨"", "Missing required property: method"⟩ ∧
      (requestRun ⟨"e", "v1", none, []⟩ [("path", .jstr "/x")]).sent = [] :=
  (c2_amended ⟨"e", "v1", none, []⟩ [("path", .jstr "/x")]).2 _ rfl

/-- The query parameters `extendOptions` builds for a query schema and a
body. -/
def queryParams (qs : JSchema) (body : JObj) : List String :=
  qs.properties.filterMap (fun p =>
    match objGet body p.1 with
    | some v => some (p.1 ++ "=" ++ encodeURIComponent (jsToString v))
    | none => none)

/-- C3: for a descriptor declaring a query schema, exactly the schema's
declared property names that are also keys of the body are appended as
`name=urlEncode(value)` pairs, joined with `&` and prefixed with `?`
only when at least one pair exists; the pair order follows the schema's
declared property order, and body keys not declared in the schema never
contribute a pair. -/
theorem c3_extendOptions (desc : Descriptor) (ds : DSchema) (qs : JSchema)
    (o : JObj) (hs : desc.schema = some ds) (hq : ds.query = some qs) :
    (extendOptions desc o = objSet o "path" (.jstr (strOfOpt (objGet o "path") ++
      (if (queryParams qs (jsonObjOf (objGet o "json"))).isEmpty then ""
       else "?" ++ joinSep "&" (queryParams qs (jsonObjOf (objGet o "json"))))))) ∧
    (∀ q ∈ queryParams qs (jsonObjOf (objGet o "json")),
      ∃ k v, k ∈ qs.properties.map Prod.fst ∧
        objGet (jsonObjOf (objGet o "json")) k = some v ∧
        q = k ++ "=" ++ encodeURIComponent (jsToString v)) := by
  constructor
  · simp [extendOptions, hs, hq, queryParams]
  · intro q hmem
    rw [queryParams, List.mem_filterMap] at hmem
    obtain ⟨p, hp, he⟩ := hmem
    rcases hv : objGet (jsonObjOf (objGet o "json")) p.1 with _ | v
    · rw [hv] at he; cases he
    · rw [hv] at he
      exact ⟨p.1, v, List.mem_map_of_mem Prod.fst hp, hv, (Option.some.inj he).symm⟩

/-- Witness for C3: the spec's own example — query schema `{a, b}` and
arguments `{a:1, b:2, c:3}` expand the path `/x` to `/x?a=1&b=2`, with
`c` excluded and the order following the schema declaration. -/
theorem c3_extendOptions_witness :
    extendOptions
        ⟨"GET", "/x", some ⟨none, some ⟨[("a", .tany), ("b", .tany)], []⟩⟩, []⟩
        [("method", .jstr "GET"), ("path", .jstr "/x"),
         ("json", .jobj [("a", .jnum 1), ("b", .jnum 2), ("c", .jnum 3)])] =
      [("method", .jstr "GET"), ("path", .jstr "/x?a=1&b=2"),
       ("json", .jobj [("a", .jnum 1), ("b", .jnum 2), ("c", .jnum 3)])] :=
  ((c3_extendOptions
      ⟨"GET", "/x", some ⟨none, some ⟨[("a", .tany), ("b", .tany)], []⟩⟩, []⟩
      ⟨none, some ⟨[("a", .tany), ("b", .tany)], []⟩⟩
      ⟨[("a", .tany), ("b", .tany)], []⟩
      [("method", .jstr "GET"), ("path", .jstr "/x"),
       ("json", .jobj [("a", .jnum 1), ("b", .jnum 2), ("c", .jnum 3)])]
      rfl rfl).1).trans rfl

theorem objGet_setTokenHeader_ne (o : JObj) (t : String) (k : String)
    (hk : ¬ k = "headers") : objGet (setTokenHeader o t) k = objGet o k := by
  unfold setTokenHeader
  rcases objGet o "headers" with _ | v
  · rfl
  · cases v <;> first
      | rfl
      | (rw [objGet_objUpd]; simp [hk])

theorem objGet_jsDefaults_uri_headers (ctx : ClientCtx) (o : JObj) :
    objGet (jsDefaults o
      [("uri", .jstr (buildUri ctx o)), ("headers", .jobj [])]) "uri" =
      some (.jstr (buildUri ctx o)) ∧
    objGet (jsDefaults o
      [("uri", .jstr (buildUri ctx o)), ("headers", .jobj [])]) "headers" =
      some (.jobj []) := by
  constructor <;> (rw [objGet_jsDefaults _ _ _ (by simp)]; rfl)

theorem objGet_processValidated_uri (ctx : ClientCtx) (o : JObj) :
    objGet (processValidated ctx o) "uri" = some (.jstr (buildUri ctx o)) := by
  obtain ⟨h2, hth⟩ := objGet_jsDefaults_uri_headers ctx o
  unfold processValidated
  rcases activeToken ctx with _ | t
  · exact h2
  · simp only [hth, Option.getD_some, truthy, if_true]
    rw [objGet_setTokenHeader_ne _ _ _ (by decide)]
    exact h2

/-- C4: the `uri` of every processed request — whatever the merged
options held beforehand, since the `defaults` call overwrites any prior
`uri` (the trailing self-copy of `Object.assign(obj, vals, obj)` is a
no-op, so its sources win) — is the mustache rendering of
`endpoint + "/" + apiVersion + path` against the body, followed by
replacing every `&#x2F;` entity with `/`; in particular the template
`/secret/\x7b\x7bname\x7d\x7d` with body `{name: "foo/bar"}` yields a
URI ending in `/secret/foo/bar`, the literal slash preserved. -/
theorem c4_uriTemplating (ctx : ClientCtx) (o : JObj) :
    objGet (processValidated ctx o) "uri" =
      some (.jstr (String.mk (unescapeSlashes
        (mustacheRender
          (ctx.endpoint ++ "/" ++ ctx.apiVersion ++ strOfOpt (objGet o "path"))
          (jsonObjOf (objGet o "json"))).data))) ∧
    buildUri ⟨"http://127.0.0.1:8200", "v1", none, []⟩
        [("path", .jstr "/secret/\x7b\x7bname\x7d\x7d"),
         ("json", .jobj [("name", .jstr "foo/bar")])] =
      "http://127.0.0.1:8200/v1/secret/foo/bar" :=
  ⟨objGet_processValidated_uri ctx o, rfl⟩

/-- C5: a generated operation whose descriptor declares a request-body
schema fails with the validator's structured error on a violating
argument object, before any transport dispatch; when the descriptor's
`schema.req` is absent, body validation is skipped entirely and the call
proceeds directly to query validation and dispatch. -/
theorem c5_schemaValidation (st : CallState) (args : JObj) :
    (∀ ds sch e, st.desc.schema = some ds → ds.req = some sch →
      validateSchema sch (.jobj args) = some e →
      (generatedCall st args).result = .error e ∧
      (generatedCall st args).sent = []) ∧
    (∀ ds, st.desc.schema = some ds → ds.req = none →
      generatedCall st args =
        (match valOpt ds.query (.jobj args) with
         | some e => ⟨.error e, [], args, st⟩
         | none => genAfterValidation st args (genOptions st args))) := by
  constructor
  · intro ds sch e hs hr hv
    constructor <;> simp [generatedCall, hs, valOpt, hr, hv]
  · intro ds hs hr
    simp [generatedCall, hs, valOpt, hr]

/-- Witness for C5: a descriptor requiring a `name` property rejects an
empty argument object with the validator's error and dispatches
nothing. -/
theorem c5_schemaValidation_witness :
    (generatedCall ⟨⟨"e", "v1", none, []⟩,
        ⟨"POST", "/x", some ⟨some ⟨[("name", .tstring)], ["name"]⟩, none⟩, []⟩⟩
      []).result = .error ⟨"", "Missing required property: name"⟩ ∧
    (generatedCall ⟨⟨"e", "v1", none, []⟩,
        ⟨"POST", "/x", some ⟨some ⟨[("name", .tstring)], ["name"]⟩, none⟩, []⟩⟩
      []).sent = [] :=
  (c5_schemaValidation
      ⟨⟨"e", "v1", none, []⟩,
        ⟨"POST", "/x", some ⟨some ⟨[("name", .tstring)], ["name"]⟩, none⟩, []⟩⟩
      []).1 _ _ _ rfl rfl rfl

/-- C6: a descriptor with no `schema` field at all performs no
validation and passes the raw merged options straight to the dispatch
stage. -/
theorem c6_noSchemaFastPath (st : CallState) (args : JObj)
    (h : st.desc.schema = none) :
    generatedCall st args = genDispatch st args (genOptions st args) := by
  simp [generatedCall, h]

/-- Witness for C6 at a concrete schema-less descriptor and argument
object. -/
theorem c6_noSchemaFastPath_witness :
    generatedCall ⟨⟨"e", "v1", none, []⟩, ⟨"GET", "/x", none, []⟩⟩
        [("a", .jnum 1)] =
      genDispatch ⟨⟨"e", "v1", none, []⟩, ⟨"GET", "/x", none, []⟩⟩
        [("a", .jnum 1)]
        (genOptions ⟨⟨"e", "v1", none, []⟩, ⟨"GET", "/x", none, []⟩⟩
          [("a", .jnum 1)]) :=
  c6_noSchemaFastPath ⟨⟨"e", "v1", none, []⟩, ⟨"GET", "/x", none, []⟩⟩
    [("a", .jnum 1)] rfl

theorem objGet_processValidated_headers (ctx : ClientCtx) (o : JObj) :
    objGet (processValidated ctx o) "headers" =
      some (.jobj (match activeToken ctx with
            | some t => [("X-Vault-Token", .jstr t)]
            | none => [])) := by
  obtain ⟨_, hth⟩ := objGet_jsDefaults_uri_headers ctx o
  unfold processValidated
  rcases hat : activeToken ctx with _ | t
  · exact hth
  · simp only [hth, Option.getD_some, truthy, if_true]
    simp only [setTokenHeader, hth]
    rw [objGet_objUpd, if_pos rfl, hth]
    rfl

theorem requestRun_ok (ctx : ClientCtx) (caller fin : JObj)
    (hok : (requestRun ctx caller).result = .ok fin) :
    fin = processValidated ctx (mergePhase ctx caller) ∧
    (requestRun ctx caller).sent = [fin] := by
  by_cases hi : isFalseVal (objGet caller "inherit") = true <;>
    rcases htv : tv4Check (mergePhase ctx caller) with _ | e <;>
      simp [requestRun, htv, hi] at hok ⊢ <;>
        simp [hok]

/-- C7 counterexample: the `headers` mapping of a dispatched request is
not "empty unless already present" — the `defaults` call replaces
`options.headers` with a fresh empty object unconditionally (the
trailing self-copy of `Object.assign(obj, vals, obj)` is a no-op, so its
sources win), discarding any headers the merged options carried.  A
tokenless call whose options carry `headers: \x7ba: "b"\x7d` dispatches
with empty headers. -/
theorem c7_counterexample :
    objGet (mergePhase ⟨"e", "v1", none, []⟩
        [("path", .jstr "/x"), ("method", .jstr "GET"),
         ("headers", .jobj [("a", .jstr "b")])]) "headers" =
      some (.jobj [("a", .jstr "b")]) ∧
    (requestRun ⟨"e", "v1", none, []⟩
        [("path", .jstr "/x"), ("method", .jstr "GET"),
         ("headers", .jobj [("a", .jstr "b")])]).sent =
      [[("path", .jstr "/x"), ("method", .jstr "GET"),
        ("headers", .jobj []), ("uri", .jstr "e/v1/x")]] ∧
    objGet [("path", JVal.jstr "/x"), ("method", JVal.jstr "GET"),
        ("headers", JVal.jobj []), ("uri", JVal.jstr "e/v1/x")] "headers" ≠
      some (.jobj [("a", .jstr "b")]) := by
  refine ⟨rfl, rfl, ?_⟩
  intro h
  have h2 : (true : Bool) = false :=
    calc (true : Bool)
        = objHas (jsonObjOf (objGet ([("path", JVal.jstr "/x"),
            ("method", JVal.jstr "GET"), ("headers", JVal.jobj []),
            ("uri", JVal.jstr "e/v1/x")] : JObj) "headers")) "a" := by
            rw [h]; rfl
      _ = false := rfl
  cases h2

/-- C7 amended: every dispatched request carries a `headers` mapping —
always the freshly created empty object that the `defaults` call writes
over the options (any headers the merged options carried are discarded)
— and `X-Vault-Token` is set to the client's token exactly when the
client holds a non-empty string token; when no token is held the
dispatched headers are empty and no such header is attached. -/
theorem c7_tokenHeader (ctx : ClientCtx) (caller fin : JObj)
    (hok : (requestRun ctx caller).result = .ok fin) :
    ((requestRun ctx caller).sent = [fin]) ∧
    (∃ hv, objGet fin "headers" = some hv) ∧
    (∀ t, activeToken ctx = some t →
      objGet fin "headers" = some (.jobj [("X-Vault-Token", .jstr t)]) ∧
      objGet [("X-Vault-Token", JVal.jstr t)] "X-Vault-Token" =
        some (.jstr t)) ∧
    (activeToken ctx = none →
      objGet fin "headers" = some (.jobj []) ∧
      objGet ([] : JObj) "X-Vault-Token" = none) := by
  obtain ⟨hfin, hsent⟩ := requestRun_ok ctx caller fin hok
  subst hfin
  refine ⟨hsent, ?_, ?_, ?_⟩
  · rw [objGet_processValidated_headers]
    exact ⟨_, rfl⟩
  · intro t hat
    rw [objGet_processValidated_headers, hat]
    exact ⟨rfl, rfl⟩
  · intro hat
    rw [objGet_processValidated_headers, hat]
    exact ⟨rfl, rfl⟩

/-- Witness for C7 amended: a client holding token `abc` dispatches with
exactly `X-Vault-Token: abc` as the assembled headers. -/
theorem c7_tokenHeader_witness :
    objGet [("path", JVal.jstr "/x"), ("method", JVal.jstr "GET"),
        ("uri", JVal.jstr "e/v1/x"),
        ("headers", JVal.jobj [("X-Vault-Token", JVal.jstr "abc")])]
      "headers" = some (.jobj [("X-Vault-Token", .jstr "abc")]) :=
  ((c7_tokenHeader ⟨"e", "v1", some "abc", []⟩
      [("path", .jstr "/x"), ("method", .jstr "GET")]
      [("path", .jstr "/x"), ("method", .jstr "GET"),
       ("uri", .jstr "e/v1/x"),
       ("headers", .jobj [("X-Vault-Token", .jstr "abc")])]
      rfl).2.2.1 "abc" rfl).1

/-- The three-source merge C8's sentence describes, stated in the
spec's words for comparison with the code's merge: client-wide defaults,
then `args.requestOptions`, then the descriptor's method and path with
the caller's args as body. -/
def specMergeC8 (ctx : ClientCtx) (desc : Descriptor) (args : JObj) : JObj :=
  objAssign (objAssign ctx.requestOptions (reqOptsOf args))
    [("method", .jstr desc.method), ("path", .jstr desc.path), ("json", .jobj args)]

/-- C8 counterexample: the merge the code performs also includes the
descriptor's own `requestOptions` (line 174), which the claim's
three-source merge omits; a descriptor carrying `requestOptions:
{timeout: 5}` yields merged options containing `timeout`, absent from
the claimed merge. -/
theorem c8_counterexample :
    objHas (mergePhase ⟨"e", "v1", none, []⟩
        (genOptions ⟨⟨"e", "v1", none, []⟩,
          ⟨"GET", "/x", none, [("timeout", .jnum 5)]⟩⟩ [])) "timeout" = true ∧
    objHas (specMergeC8 ⟨"e", "v1", none, []⟩
        ⟨"GET", "/x", none, [("timeout", .jnum 5)]⟩ []) "timeout" = false ∧
    mergePhase ⟨"e", "v1", none, []⟩
        (genOptions ⟨⟨"e", "v1", none, []⟩,
          ⟨"GET", "/x", none, [("timeout", .jnum 5)]⟩⟩ []) ≠
      specMergeC8 ⟨"e", "v1", none, []⟩
        ⟨"GET", "/x", none, [("timeout", .jnum 5)]⟩ [] := by
  refine ⟨rfl, rfl, ?_⟩
  intro h
  have h2 : (true : Bool) = false :=
    calc (true : Bool)
        = objHas (mergePhase ⟨"e", "v1", none, []⟩
            (genOptions ⟨⟨"e", "v1", none, []⟩,
              ⟨"GET", "/x", none, [("timeout", .jnum 5)]⟩⟩ [])) "timeout" := rfl
      _ = objHas (specMergeC8 ⟨"e", "v1", none, []⟩
            ⟨"GET", "/x", none, [("timeout", .jnum 5)]⟩ []) "timeout" := by rw [h]
      _ = false := rfl
  cases h2

theorem keys_objUpd (o : JObj) (k : String) (v : JVal) :
    (objUpd o k v).map Prod.fst = o.map Prod.fst := by
  induction o with
  | nil => rfl
  | cons p rest ih =>
      by_cases h : p.1 = k
      · simp [objUpd, h, ih]
      · simp [objUpd, h, ih]

theorem not_mem_of_objGet_eq_none (o : JObj) (k : String)
    (h : objGet o k = none) : k ∉ o.map Prod.fst := by
  induction o with
  | nil => simp
  | cons p rest ih =>
      rw [objGet_cons] at h
      by_cases hp : p.1 = k
      · rw [if_pos hp] at h; cases h
      · rw [if_neg hp] at h
        simp only [List.map_cons, List.mem_cons]
        rintro (hc | hc)
        · exact hp hc.symm
        · exact ih h hc

theorem nodupKeys_objSet (o : JObj) (k : String) (v : JVal)
    (h : (o.map Prod.fst).Nodup) : ((objSet o k v).map Prod.fst).Nodup := by
  unfold objSet
  by_cases hh : objHas o k = true
  · rw [if_pos hh, keys_objUpd]; exact h
  · rw [if_neg hh]
    rw [objHas_eq_isSome] at hh
    have hn : objGet o k = none := by
      rcases hg : objGet o k with _ | w
      · rfl
      · rw [hg] at hh; simp at hh
    have := not_mem_of_objGet_eq_none o k hn
    simp [List.nodup_append, h, this]

theorem nodupKeys_objAssign (a b : JObj)
    (h : (a.map Prod.fst).Nodup) : ((objAssign a b).map Prod.fst).Nodup := by
  induction b generalizing a with
  | nil => exact h
  | cons p rest ih =>
      exact ih (objSet a p.1 p.2) (nodupKeys_objSet a p.1 p.2 h)

theorem optOr_assoc (a b c : Option JVal) :
    optOr (optOr a b) c = optOr a (optOr b c) := by
  cases a <;> rfl

/-- C8 amended: for a generated-operation call (whose merged options do
not set `inherit` to `false`), the options reaching validation are the
merge, in increasing priority, of the client-wide default request
options, the **descriptor's own `requestOptions`**, the per-call
overrides from `args.requestOptions`, and the descriptor's method and
path plus the caller's args as body, later sources winning on key
conflicts and the `inherit` key being removed; for the low-level request
operation, `inherit === false` suppresses the merge of client-wide
defaults entirely. -/
theorem c8_amended (st : CallState) (args caller : JObj) (ctx : ClientCtx)
    (hnodesc : (st.desc.requestOptions.map Prod.fst).Nodup)
    (hnoargs : ((reqOptsOf args).map Prod.fst).Nodup)
    (hni : ¬ isFalseVal (objGet (genOptions st args) "inherit") = true) :
    (∀ k, objGet (mergePhase st.ctx (genOptions st args)) k =
      if k = "inherit" then none
      else optOr (objGet [("method", .jstr st.desc.method),
              ("path", .jstr st.desc.path), ("json", .jobj args)] k)
             (optOr (objGet (reqOptsOf args) k)
               (optOr (objGet st.desc.requestOptions k)
                 (objGet st.ctx.requestOptions k)))) ∧
    (isFalseVal (objGet caller "inherit") = true →
      mergePhase ctx caller = objDelete caller "inherit") := by
  constructor
  · intro k
    have hlit : ((([("method", JVal.jstr st.desc.method),
        ("path", JVal.jstr st.desc.path), ("json", JVal.jobj args)]) : JObj).map
          Prod.fst).Nodup := by simp
    have hX : (((objAssign st.desc.requestOptions (reqOptsOf args)).map
        Prod.fst)).Nodup := nodupKeys_objAssign _ _ hnodesc
    have hO : ((genOptions st args).map Prod.fst).Nodup :=
      nodupKeys_objAssign _ _ hX
    rw [mergePhase, if_neg hni, objGet_objDelete]
    by_cases hk : k = "inherit"
    · simp [hk]
    · rw [if_neg hk, objGet_objAssign _ _ _ hO]
      unfold genOptions
      rw [objGet_objAssign _ _ _ hlit, objGet_objAssign _ _ _ hnoargs,
        optOr_assoc, optOr_assoc, if_neg hk]
  · intro h
    simp [mergePhase, h]

/-- Witness for C8 amended: `args.requestOptions` overrides the
descriptor's `requestOptions` on the shared `timeout` key, and an
`inherit: false` request skips the client-wide defaults. -/
theorem c8_amended_witness :
    objGet (mergePhase ⟨"e", "v1", none, [("agent", .jstr "a")]⟩
        (genOptions ⟨⟨"e", "v1", none, [("agent", .jstr "a")]⟩,
          ⟨"GET", "/x", none, [("timeout", .jnum 5)]⟩⟩
          [("requestOptions", .jobj [("timeout", .jnum 9)])])) "timeout" =
      some (.jnum 9) ∧
    mergePhase ⟨"e", "v1", none, [("agent", .jstr "a")]⟩
        [("inherit", .jbool false), ("path", .jstr "/y")] =
      [("path", .jstr "/y")] :=
  ⟨((c8_amended ⟨⟨"e", "v1", none, [("agent", .jstr "a")]⟩,
        ⟨"GET", "/x", none, [("timeout", .jnum 5)]⟩⟩
      [("requestOptions", .jobj [("timeout", .jnum 9)])]
      [("inherit", .jbool false), ("path", .jstr "/y")]
      ⟨"e", "v1", none, [("agent", .jstr "a")]⟩
      (by decide) (by decide) (by decide)).1 "timeout").trans rfl,
   ((c8_amended ⟨⟨"e", "v1", none, [("agent", .jstr "a")]⟩,
        ⟨"GET", "/x", none, [("timeout", .jnum 5)]⟩⟩
      [("requestOptions", .jobj [("timeout", .jnum 9)])]
      [("inherit", .jbool false), ("path", .jstr "/y")]
      ⟨"e", "v1", none, [("agent", .jstr "a")]⟩
      (by decide) (by decide) (by decide)).2 rfl).trans rfl⟩

theorem isFalseVal_eq_some (x : Option JVal) (h : isFalseVal x = true) :
    x = some (.jbool false) := by
  rcases x with _ | v
  · simp [isFalseVal] at h
  · rcases v with _ | b | n | s | es | f
    · simp [isFalseVal] at h
    · cases b
      · rfl
      · simp [isFalseVal] at h
    · simp [isFalseVal] at h
    · simp [isFalseVal] at h
    · simp [isFalseVal] at h
    · simp [isFalseVal] at h

theorem objGet_processValidated_ne (ctx : ClientCtx) (o : JObj) (k : String)
    (h1 : ¬ k = "uri") (h2 : ¬ k = "headers") :
    objGet (processValidated ctx o) k = objGet o k := by
  have hu : ¬ ("uri" : String) = k := fun hc => h1 hc.symm
  have hh : ¬ ("headers" : String) = k := fun hc => h2 hc.symm
  have hv : objGet (jsDefaults o
      [("uri", .jstr (buildUri ctx o)), ("headers", .jobj [])]) k =
      objGet o k := by
    rw [objGet_jsDefaults _ _ _ (by simp)]
    simp [objGet_cons, hu, hh]
  obtain ⟨_, hth⟩ := objGet_jsDefaults_uri_headers ctx o
  unfold processValidated
  rcases activeToken ctx with _ | t
  · exact hv
  · simp only [hth, Option.getD_some, truthy, if_true]
    rw [objGet_setTokenHeader_ne _ _ _ h2]
    exact hv

theorem requestRun_caller_const (ctx : ClientCtx) (caller : JObj)
    (h : isFalseVal (objGet caller "inherit") = false) :
    (requestRun ctx caller).caller = caller := by
  rcases htv : tv4Check (mergePhase ctx caller) with _ | e <;>
    simp [requestRun, htv, h]

/-- C10: with `inherit === false` the low-level request operates on the
caller's options object itself rather than a copy — `inherit` is
deleted from it, and on successful validation the `uri` and `headers`
fields (with the token header, token permitting) are written onto it in
place, so the caller's object is mutated; for every other call a fresh
merged object is used and the caller's options object is left unchanged
(in particular the `defaults` call replaces `options.headers` of the
fresh object with a freshly created one before the token write, so not
even a caller-supplied `headers` object is written through). -/
theorem c10_frameEffect (ctx : ClientCtx) (caller : JObj) :
    (isFalseVal (objGet caller "inherit") = true →
      (∀ e, (requestRun ctx caller).result = .error e →
        (requestRun ctx caller).caller = objDelete caller "inherit") ∧
      (∀ fin, (requestRun ctx caller).result = .ok fin →
        (requestRun ctx caller).caller =
          processValidated ctx (objDelete caller "inherit") ∧
        objGet (requestRun ctx caller).caller "uri" =
          some (.jstr (buildUri ctx (objDelete caller "inherit"))) ∧
        ∃ hv, objGet (requestRun ctx caller).caller "headers" = some hv) ∧
      (requestRun ctx caller).caller ≠ caller) ∧
    (isFalseVal (objGet caller "inherit") = false →
      (requestRun ctx caller).caller = caller) := by
  constructor
  · intro hi
    have hm : mergePhase ctx caller = objDelete caller "inherit" := by
      simp [mergePhase, hi]
    refine ⟨?_, ?_, ?_⟩
    · intro e he
      rcases htv : tv4Check (mergePhase ctx caller) with _ | e'
      · simp [requestRun, htv, hi] at he
      · simp [requestRun, htv, hi]
        rw [hm]
    · intro fin hfin
      rcases htv : tv4Check (mergePhase ctx caller) with _ | e'
      · have hc : (requestRun ctx caller).caller =
            processValidated ctx (objDelete caller "inherit") := by
          simp [requestRun, htv, hi]
          rw [hm]
        refine ⟨hc, ?_, ?_⟩
        · rw [hc, objGet_processValidated_uri]
        · rw [hc, objGet_processValidated_headers]
          exact ⟨_, rfl⟩
      · simp [requestRun, htv, hi] at hfin
    · have hIn : objGet caller "inherit" = some (.jbool false) :=
        isFalseVal_eq_some _ hi
      have hafter : objGet ((requestRun ctx caller).caller) "inherit" = none := by
        rcases htv : tv4Check (mergePhase ctx caller) with _ | e'
        · have hc : (requestRun ctx caller).caller =
              processValidated ctx (mergePhase ctx caller) := by
            simp [requestRun, htv, hi]
          rw [hc, objGet_processValidated_ne _ _ _ (by decide) (by decide), hm,
            objGet_objDelete, if_pos rfl]
        · have hc : (requestRun ctx caller).caller = objDelete caller "inherit" := by
            simp [requestRun, htv, hi]
            rw [hm]
          rw [hc, objGet_objDelete, if_pos rfl]
      intro hEq
      rw [hEq, hIn] at hafter
      cases hafter
  · intro hi
    exact requestRun_caller_const ctx caller hi

/-- Witness for C10: the in-place branch deletes `inherit` from (and so
mutates) a concrete caller object, while a caller without `inherit` set
to `false` comes back from a dispatched call unchanged. -/
theorem c10_frameEffect_witness :
    (requestRun ⟨"e", "v1", some "abc", []⟩
        [("inherit", .jbool false), ("path", .jstr "/x"),
         ("method", .jstr "GET")]).caller ≠
      [("inherit", .jbool false), ("path", .jstr "/x"),
       ("method", .jstr "GET")] ∧
    (requestRun ⟨"e", "v1", some "abc", []⟩
        [("path", .jstr "/x"), ("method", .jstr "GET"),
         ("headers", .jobj [])]).caller =
      [("path", .jstr "/x"), ("method", .jstr "GET"),
       ("headers", .jobj [])] :=
  ⟨((c10_frameEffect ⟨"e", "v1", some "abc", []⟩
      [("inherit", .jbool false), ("path", .jstr "/x"),
       ("method", .jstr "GET")]).1 rfl).2.2,
   (c10_frameEffect ⟨"e", "v1", some "abc", []⟩
      [("path", .jstr "/x"), ("method", .jstr "GET"),
       ("headers", .jobj [])]).2 rfl⟩

/-- The request pipeline reads the client state but never writes it. -/
theorem requestRun_ctx_const (ctx : ClientCtx) (caller : JObj) :
    (requestRun ctx caller).ctx = ctx := by
  by_cases hi : isFalseVal (objGet caller "inherit") = true <;>
    rcases htv : tv4Check (mergePhase ctx caller) with _ | e <;>
      simp [requestRun, htv, hi]

/-- C9: calling the same generated operation twice with identical
argument objects produces two independently constructed request
specifications with identical field values — a generated call writes
nothing into the `args` object, the descriptor or the client state (the
options object it builds is fresh, and the `defaults` step inside
`request` replaces its `headers` with another fresh object before the
token write, so no object shared with the caller or the client is ever
mutated), hence a second invocation run on the state the first left
behind settles to the same result and dispatches the same traffic. -/
theorem c9_idempotent (st : CallState) (args : JObj) :
    ((generatedCall st args).state = st ∧
     (generatedCall st args).args = args) ∧
    (generatedCall ((generatedCall st args).state)
        ((generatedCall st args).args)).result =
      (generatedCall st args).result ∧
    (generatedCall ((generatedCall st args).state)
        ((generatedCall st args).args)).sent =
      (generatedCall st args).sent := by
  obtain ⟨ctx, desc⟩ := st
  have hpres : (generatedCall ⟨ctx, desc⟩ args).state = ⟨ctx, desc⟩ ∧
      (generatedCall ⟨ctx, desc⟩ args).args = args := by
    unfold generatedCall genAfterValidation genDispatch
    rcases hs : desc.schema with _ | ds
    · simp only [hs]
      exact ⟨by rw [requestRun_ctx_const], by trivial⟩
    · simp only [hs]
      rcases hr : valOpt ds.req (.jobj args) with _ | e
      · simp only [hr]
        rcases hq : valOpt ds.query (.jobj args) with _ | e2
        · simp only [hq]
          exact ⟨by rw [requestRun_ctx_const], by trivial⟩
        · exact ⟨rfl, rfl⟩
      · exact ⟨rfl, rfl⟩
  refine ⟨hpres, ?_, ?_⟩ <;> rw [hpres.1, hpres.2]

end NodeVault
